import Mathlib

/-!
Verification of the mountaineer native core (Rust sources under `src/`)
against its natural-language specification.

The Rust code is shallowly embedded: pure functions become Lean functions,
Rust `u32`/`i32` arithmetic is `Nat`/`Int` with explicit `% 2^32` wrapping
where overflow matters, fallible paths return `Except`/`Option`-style
results, and a Rust `panic!`/`unwrap` failure is a dedicated constructor of
the result type.  External collaborators (the filesystem, the rolldown
bundler, the V8 engine) are modelled as explicit oracle parameters, exactly
at the boundary where the Rust code calls into them.
-/

namespace Mountaineer

/-! ## VLQ decoder (`src/source_map.rs`, `VLQDecoder`)

`VLQDecoder::parse_vlq` has return type `Vec<i32>`: it has no error
channel.  The only non-returning outcome is the Rust panic raised by
`self.alphabet.get(&c).unwrap()` when a character is outside the base64
alphabet.  `VlqResult.panic` embeds that panic. -/

inductive VlqResult where
  | ok (values : List Int) : VlqResult
  | panic : VlqResult
  deriving DecidableEq, Repr

/-- Embedding of `VLQDecoder::generate_base64_alphabet`: the Rust code
inserts `A..=Z`, then `a..=z`, then `0..=9`, then `+` and `/`, each with the
current map size as its value, giving `A-Z → 0..25`, `a-z → 26..51`,
`0-9 → 52..61`, `+ → 62`, `/ → 63`.  A character outside the alphabet has no
entry (`none`). -/
def base64_alphabet (c : Char) : Option Nat :=
  if 'A' ≤ c ∧ c ≤ 'Z' then some (c.toNat - 'A'.toNat)
  else if 'a' ≤ c ∧ c ≤ 'z' then some (26 + (c.toNat - 'a'.toNat))
  else if '0' ≤ c ∧ c ≤ '9' then some (52 + (c.toNat - '0'.toNat))
  else if c = '+' then some 62
  else if c = '/' then some 63
  else none

/-- State of the `for sextet in sextets` loop of `VLQDecoder::parse_vlq`:
the accumulated `final_values`, the running `current_value` (a `u32`),
`current_bit_offset`, `current_sign_value` (`1` or `-1`) and the
`is_continuation` flag. -/
structure VlqState where
  final_values : List Int
  current_value : Nat
  current_bit_offset : Nat
  current_sign_value : Int
  is_continuation : Bool
  deriving DecidableEq, Repr

def vlqInitState : VlqState :=
  { final_values := []
    current_value := 0
    current_bit_offset := 0
    current_sign_value := 1
    is_continuation := false }

/-- Reinterpret a `u32` value (a `Nat` mod `2^32`) as an `i32`, as done by
`current_value as i32`. -/
def u32_as_i32 (n : Nat) : Int :=
  if n % 2 ^ 32 < 2 ^ 31 then ((n % 2 ^ 32 : Nat) : Int)
  else ((n % 2 ^ 32 : Nat) : Int) - 2 ^ 32

/-- Wrap a mathematical integer into `i32` two's-complement range, modelling
release-mode wrapping of `i32` arithmetic. -/
def wrap_i32 (i : Int) : Int :=
  (i + 2 ^ 31) % 2 ^ 32 - 2 ^ 31

/-- One iteration of the `for sextet in sextets` loop of
`VLQDecoder::parse_vlq`.  The masks are the decoder's constants:
`sign_bit_mask = 0b1`, `continuation_bit_mask = 0b100000`,
`continuation_value_mask = (0b011111, 0)`,
`original_value_mask = (0b011110, 1)`.  `u32` addition wraps mod `2^32` and
the shift amount is masked mod 32 (Rust release semantics). -/
def vlqStep (st : VlqState) (sextet : Nat) : VlqState :=
  let sign := if st.is_continuation then st.current_sign_value
    else if sextet &&& 1 ≠ 0 then -1 else 1
  let masked := if st.is_continuation then sextet &&& 31
    else (sextet &&& 30) >>> 1
  let value := (st.current_value + (masked <<< (st.current_bit_offset % 32))) % 2 ^ 32
  let offset := st.current_bit_offset + (if st.is_continuation then 5 else 4)
  let cont := sextet &&& 32 ≠ 0
  if cont then
    { final_values := st.final_values
      current_value := value
      current_bit_offset := offset
      current_sign_value := sign
      is_continuation := true }
  else
    { final_values := st.final_values ++ [wrap_i32 (sign * u32_as_i32 value)]
      current_value := 0
      current_bit_offset := 0
      current_sign_value := 1
      is_continuation := false }

/-- `vlq_value.chars().map(|c| *self.alphabet.get(&c).unwrap()).collect()`:
translate every character to its sextet, the first character without an
alphabet entry making the whole collection panic. -/
def toSextets : List Char → Option (List Nat)
  | [] => some []
  | c :: rest =>
    match base64_alphabet c with
    | none => none
    | some v => (toSextets rest).map (fun vs => v :: vs)

/-- Embedding of `VLQDecoder::parse_vlq` on a list of characters.  The Rust
code first maps every character through the alphabet, panicking
(`.unwrap()`) on the first character that has no entry, then folds the loop
body over the sextets. -/
def parse_vlq_chars (cs : List Char) : VlqResult :=
  match toSextets cs with
  | none => VlqResult.panic
  | some sextets => VlqResult.ok ((sextets.foldl vlqStep vlqInitState).final_values)

/-- `VLQDecoder::parse_vlq` on a Rust `&str`. -/
def parse_vlq (s : String) : VlqResult :=
  parse_vlq_chars s.data

example : parse_vlq "aAYQA" = VlqResult.ok [13, 0, 12, 8, 0] := by decide
example : parse_vlq "kBAChO" = VlqResult.ok [18, 0, 1, -224] := by decide
example : parse_vlq "AClrFA" = VlqResult.ok [0, 1, -2738, 0] := by decide
example : parse_vlq "!" = VlqResult.panic := by decide
example : parse_vlq "Ag" = parse_vlq "A" := by decide

/-! ## Source-map mapping parser (`src/source_map.rs`, `SourceMapParser`) -/

/-- Embedding of the `MapMetadata` struct (`i32` fields become `Int`,
`Option<i32>` becomes `Option Int`). -/
structure MapMetadata where
  line_number : Int
  column_number : Int
  source_index : Option Int
  source_line : Option Int
  source_column : Option Int
  symbol_index : Option Int
  deriving DecidableEq, Repr

/-- `MapMetadata::new`: only the line and column are set. -/
def MapMetadata.new (line_number column_number : Int) : MapMetadata :=
  { line_number := line_number
    column_number := column_number
    source_index := none
    source_line := none
    source_column := none
    symbol_index := none }

/-- The `merge_and_update_attribute` closure: add the state value onto the
current value when both are present, otherwise keep the current value. -/
def merge_and_update_attribute (current state : Option Int) : Option Int :=
  match current, state with
  | some c, some s => some (c + s)
  | c, _ => c

/-- The `update_state_attribute` closure: the state takes the (merged)
current value whenever the current value is present. -/
def update_state_attribute (state current : Option Int) : Option Int :=
  match current with
  | some c => some c
  | none => state

/-- Embedding of `SourceMapParser::merge_relative_metadatas`.  The Rust
function mutates both `current_metadata` and `metadata_state`; the embedding
returns the pair `(merged current_metadata, updated metadata_state)`. -/
def merge_relative_metadatas (current_metadata metadata_state : MapMetadata) :
    MapMetadata × MapMetadata :=
  let merged : MapMetadata :=
    { line_number := current_metadata.line_number
      column_number :=
        if metadata_state.line_number = current_metadata.line_number then
          current_metadata.column_number + metadata_state.column_number
        else current_metadata.column_number
      source_index :=
        merge_and_update_attribute current_metadata.source_index metadata_state.source_index
      source_line :=
        merge_and_update_attribute current_metadata.source_line metadata_state.source_line
      source_column :=
        merge_and_update_attribute current_metadata.source_column metadata_state.source_column
      symbol_index :=
        merge_and_update_attribute current_metadata.symbol_index metadata_state.symbol_index }
  let new_state : MapMetadata :=
    { line_number := merged.line_number
      column_number := merged.column_number
      source_index := update_state_attribute metadata_state.source_index merged.source_index
      source_line := update_state_attribute metadata_state.source_line merged.source_line
      source_column := update_state_attribute metadata_state.source_column merged.source_column
      symbol_index := update_state_attribute metadata_state.symbol_index merged.symbol_index }
  (merged, new_state)

/-- Debug rendering of a `Vec<i32>` (`{:?}`), used in the length-error
message of `vlq_to_source_metadata`. -/
def debug_int_list (l : List Int) : String :=
  "[" ++ String.intercalate ", " (l.map toString) ++ "]"

/-- Result of a fallible parser step: `ok`, a `Result::Err` carrying a
message, or a Rust panic (from `parse_vlq`). -/
inductive RunResult (α : Type) where
  | ok (a : α) : RunResult α
  | err (msg : String) : RunResult α
  | panic : RunResult α
  deriving DecidableEq

/-- Embedding of `SourceMapParser::vlq_to_source_metadata`: decode the VLQ
run of one group and build a `MapMetadata` from 1, 4 or 5 values. -/
def vlq_to_source_metadata (line : Int) (component : List Char) : RunResult MapMetadata :=
  match parse_vlq_chars component with
  | VlqResult.panic => RunResult.panic
  | VlqResult.ok vlq_values =>
    match vlq_values with
    | [c] => RunResult.ok (MapMetadata.new line c)
    | [c, si, sl, sc] =>
      RunResult.ok { MapMetadata.new line c with
        source_index := some si, source_line := some sl, source_column := some sc }
    | [c, si, sl, sc, sym] =>
      RunResult.ok { MapMetadata.new line c with
        source_index := some si, source_line := some sl, source_column := some sc,
        symbol_index := some sym }
    | vals =>
      RunResult.err ("VLQ value should have 1, 4, or 5 components. Got " ++
        toString vals.length ++ " instead: " ++ debug_int_list vals)

/-- Splitting a character list on a separator, matching Rust
`str::split(sep)` (and `String.splitOn`): `"a;;b"` gives `["a", "", "b"]`,
the empty string gives `[""]`. -/
def splitOnChar (sep : Char) : List Char → List (List Char)
  | [] => [[]]
  | c :: rest =>
    match splitOnChar sep rest with
    | [] => [[]]
    | piece :: pieces =>
      if c = sep then [] :: piece :: pieces else (c :: piece) :: pieces

example : splitOnChar ';' "a;;b".data = ["a".data, [], "b".data] := by decide

/-- `str::trim().is_empty()`: true when every character is whitespace. -/
def trimIsEmpty (cs : List Char) : Bool :=
  cs.all Char.isWhitespace

/-- A parsed mapping event: the 1-indexed `(line, column)` key inserted into
the hash map, with the merged metadata. -/
abbrev MappingEvent := (Int × Int) × MapMetadata

/-- The inner `for component in encoded_metadata.split(',')` loop of
`SourceMapParser::parse_mapping` on one generated line: skip blank
components, decode, merge against the rolling state, and record the
insertion event.  Returns the events of this line (in order) and the state
after the line. -/
def parse_components (line : Int) (st : MapMetadata) :
    List (List Char) → RunResult (List MappingEvent × MapMetadata)
  | [] => RunResult.ok ([], st)
  | comp :: rest =>
    if trimIsEmpty comp then parse_components line st rest
    else
      match vlq_to_source_metadata line comp with
      | RunResult.panic => RunResult.panic
      | RunResult.err e => RunResult.err e
      | RunResult.ok metadata =>
        let merged := merge_relative_metadatas metadata st
        match parse_components line merged.2 rest with
        | RunResult.ok (events, st1) =>
          RunResult.ok
            (((merged.1.line_number + 1, merged.1.column_number + 1), merged.1) :: events, st1)
        | RunResult.err e => RunResult.err e
        | RunResult.panic => RunResult.panic

/-- The outer `for (line, encoded_metadata) in mappings.split(';').enumerate()`
loop of `SourceMapParser::parse_mapping`, threading the rolling
`metadata_state` across lines and concatenating the insertion events in
parse order. -/
def parse_lines (line : Nat) (st : MapMetadata) :
    List (List Char) → RunResult (List MappingEvent)
  | [] => RunResult.ok []
  | ln :: rest =>
    match parse_components (Int.ofNat line) st (splitOnChar ',' ln) with
    | RunResult.ok (events, st1) =>
      match parse_lines (line + 1) st1 rest with
      | RunResult.ok events1 => RunResult.ok (events ++ events1)
      | RunResult.err e => RunResult.err e
      | RunResult.panic => RunResult.panic
    | RunResult.err e => RunResult.err e
    | RunResult.panic => RunResult.panic

/-- The ordered sequence of `parsed_mappings.insert(..)` calls performed by
`SourceMapParser::parse_mapping` on a mappings string.  The rolling
`metadata_state` starts at `MapMetadata::new(-1, -1)`. -/
def parse_mapping_events (mappings : String) : RunResult (List MappingEvent) :=
  parse_lines 0 (MapMetadata.new (-1) (-1)) (splitOnChar ';' mappings.data)

/-- `HashMap::insert` semantics: the new binding replaces any previous
binding of the same key. -/
def insert_mapping (m : Int × Int → Option MapMetadata) (k : Int × Int)
    (v : MapMetadata) : Int × Int → Option MapMetadata :=
  fun k1 => if k1 = k then some v else m k1

/-- Folding the insertion events into the `parsed_mappings` hash map,
modelled as a partial function from 1-indexed positions to metadata. -/
def build_mapping (events : List MappingEvent) : Int × Int → Option MapMetadata :=
  events.foldl (fun m e => insert_mapping m e.1 e.2) (fun _ => none)

/-- Embedding of `SourceMapParser::parse_mapping`: the resulting hash map is
the fold of the insertion events. -/
def parse_mapping (mappings : String) : RunResult (Int × Int → Option MapMetadata) :=
  match parse_mapping_events mappings with
  | RunResult.ok events => RunResult.ok (build_mapping events)
  | RunResult.err e => RunResult.err e
  | RunResult.panic => RunResult.panic

/-! ## JS comment lexer (`src/lexers.rs`, `strip_js_comments`)

The Rust function walks the character vector with an index `i`, one
character of lookbehind (`chars[i - 1]`) and one character of lookahead
(`chars[i + 1]`), sometimes consuming two characters per iteration
(`i += 1` inside the loop body plus the trailing `i += 1`).  The embedding
recurses over the character list, carrying the previously consumed
character (`prev`, `none` when `i == 0`) together with the three state
flags. -/

structure LexState where
  is_in_block_comment : Bool
  is_in_line_comment : Bool
  string_delimiter : Option Char
  prev : Option Char
  deriving DecidableEq, Repr

def lexInit : LexState :=
  { is_in_block_comment := false
    is_in_line_comment := false
    string_delimiter := none
    prev := none }

/-- Guard of the string-opening match arm:
`'"' | '\'' | '`' if !block && !line && delimiter.is_none()`. -/
def opensString (st : LexState) (c : Char) : Prop :=
  (c = '\x22' ∨ c = '\x27' ∨ c = '\x60') ∧
    st.is_in_block_comment = false ∧ st.is_in_line_comment = false ∧
    st.string_delimiter = none

instance (st : LexState) (c : Char) : Decidable (opensString st c) := by
  unfold opensString; infer_instance

/-- Guard of the string-closing match arm:
`ch if Some(ch) == string_delimiter && i > 0 && chars[i - 1] != '\\'`. -/
def closesString (st : LexState) (c : Char) : Prop :=
  st.string_delimiter = some c ∧ st.prev ≠ none ∧ st.prev ≠ some '\\'

instance (st : LexState) (c : Char) : Decidable (closesString st c) := by
  unfold closesString; infer_instance

/-- Guard of the comment-opening match arm (lookahead handled by the
caller): `'/' if (i == 0 || chars[i - 1] != '\\') && delimiter.is_none()`. -/
def slashArm (st : LexState) (c : Char) : Prop :=
  c = '/' ∧ st.prev ≠ some '\\' ∧ st.string_delimiter = none

instance (st : LexState) (c : Char) : Decidable (slashArm st c) := by
  unfold slashArm; infer_instance

/-- The match arms that do not need lookahead (string open/close, newline,
whitespace skipping, the two fallbacks); shared by the one-character and
two-character cases of the recursion.  Returns the emitted characters for
this step and the updated state. -/
def lexStepBase (skip_whitespace : Bool) (st : LexState) (c : Char) :
    List Char × LexState :=
  if opensString st c then
    ([c], { st with string_delimiter := some c, prev := some c })
  else if closesString st c then
    ([c], { st with string_delimiter := none, prev := some c })
  else if c = '\n' ∧ st.is_in_line_comment then
    ([], { st with is_in_line_comment := false, prev := some c })
  else if c.isWhitespace ∧ skip_whitespace = true ∧ st.string_delimiter = none then
    ([], { st with prev := some c })
  else if st.is_in_block_comment = false ∧ st.is_in_line_comment = false then
    ([c], { st with prev := some c })
  else
    ([], { st with prev := some c })

/-- The `while i < chars.len()` loop of `strip_js_comments`.  The
two-character patterns (`//`, `/*`, `*/`) are only reachable when a
lookahead character exists (`i + 1 < chars.len()`). -/
def strip_go (skip_whitespace : Bool) (st : LexState) : List Char → List Char
  | [] => []
  | [c] =>
    (lexStepBase skip_whitespace st c).1
  | c :: n :: rest =>
    if opensString st c then
      c :: strip_go skip_whitespace
        { st with string_delimiter := some c, prev := some c } (n :: rest)
    else if closesString st c then
      c :: strip_go skip_whitespace
        { st with string_delimiter := none, prev := some c } (n :: rest)
    else if slashArm st c then
      if n = '/' then
        strip_go skip_whitespace
          { st with
            is_in_line_comment :=
              if st.is_in_block_comment then st.is_in_line_comment else true
            prev := some n } rest
      else if n = '*' then
        strip_go skip_whitespace
          { st with is_in_block_comment := true, prev := some n } rest
      else
        c :: strip_go skip_whitespace { st with prev := some c } (n :: rest)
    else if c = '*' ∧ st.is_in_block_comment = true then
      if n = '/' then
        strip_go skip_whitespace
          { st with is_in_block_comment := false, prev := some n } rest
      else
        c :: strip_go skip_whitespace { st with prev := some c } (n :: rest)
    else
      let step := lexStepBase skip_whitespace st c
      step.1 ++ strip_go skip_whitespace step.2 (n :: rest)

/-- Embedding of `strip_js_comments`. -/
def strip_js_comments (js_string : String) (skip_whitespace : Bool) : String :=
  String.mk (strip_go skip_whitespace lexInit js_string.data)

example :
    strip_js_comments "let x = 5; /* c */ let y" false = "let x = 5;  let y" := by
  decide

example : strip_js_comments "let x = 5; // c" true = "letx=5;" := by decide

/-- The characters consumed by `strip_js_comments` while its string state is
active (`string_delimiter.is_some()`), in consumption order, delimiters
excluded.  This is the set of characters the lexer itself regards as lying
inside a string literal; it is defined by the same state transitions as
`strip_go`. -/
def lexer_string_chars (skip_whitespace : Bool) (st : LexState) : List Char → List Char
  | [] => []
  | [c] =>
    if st.string_delimiter ≠ none ∧ ¬ closesString st c then [c] else []
  | c :: n :: rest =>
    if opensString st c then
      lexer_string_chars skip_whitespace
        { st with string_delimiter := some c, prev := some c } (n :: rest)
    else if closesString st c then
      lexer_string_chars skip_whitespace
        { st with string_delimiter := none, prev := some c } (n :: rest)
    else if st.string_delimiter ≠ none then
      c :: lexer_string_chars skip_whitespace { st with prev := some c } (n :: rest)
    else if slashArm st c then
      if n = '/' then
        lexer_string_chars skip_whitespace
          { st with
            is_in_line_comment :=
              if st.is_in_block_comment then st.is_in_line_comment else true
            prev := some n } rest
      else if n = '*' then
        lexer_string_chars skip_whitespace
          { st with is_in_block_comment := true, prev := some n } rest
      else
        lexer_string_chars skip_whitespace { st with prev := some c } (n :: rest)
    else if c = '*' ∧ st.is_in_block_comment = true then
      if n = '/' then
        lexer_string_chars skip_whitespace
          { st with is_in_block_comment := false, prev := some n } rest
      else
        lexer_string_chars skip_whitespace { st with prev := some c } (n :: rest)
    else
      lexer_string_chars skip_whitespace (lexStepBase skip_whitespace st c).2 (n :: rest)

/-! A second, spec-level string lexer used only to state the original claim:
string-literal extent per JavaScript lexing rules, where an escaping
backslash protects the following character and an escaped backslash does
not prevent the closing delimiter from closing. -/

/-- State of the spec-level JS lexer: comment flags, the enclosing string
delimiter, and whether the next string character is escaped by a
backslash. -/
structure JsLexState where
  in_block : Bool
  in_line : Bool
  delim : Option Char
  escaped : Bool
  deriving DecidableEq, Repr

/-- One step of the spec-level JS lexer for the situations that need no
lookahead: emits the interior characters of this step and the next state. -/
def jsStepBase (st : JsLexState) (c : Char) : List Char × JsLexState :=
  match st.delim with
  | some d =>
    if st.escaped then ([c], { st with escaped := false })
    else if c = '\\' then ([c], { st with escaped := true })
    else if c = d then ([], { st with delim := none })
    else ([c], st)
  | none =>
    if st.in_block then ([], st)
    else if st.in_line then
      if c = '\n' then ([], { st with in_line := false }) else ([], st)
    else if c = '\x22' ∨ c = '\x27' ∨ c = '\x60' then
      ([], { st with delim := some c, escaped := false })
    else ([], st)

/-- Modelled from the claim wording (JS lexing rules): the characters lying
strictly inside string literals of the input, in order.  Inside a string, a
backslash escapes the next character, so a delimiter preceded by an
escaping backslash does not close the literal, while an escaped backslash
before the delimiter does not prevent closing.  Outside strings, `//` and
`/* */` comments are skipped, and a delimiter character opens a literal. -/
def js_string_interior (st : JsLexState) : List Char → List Char
  | [] => []
  | [c] => (jsStepBase st c).1
  | c :: n :: rest =>
    if st.delim = none ∧ st.in_block = true ∧ c = '*' ∧ n = '/' then
      js_string_interior { st with in_block := false } rest
    else if st.delim = none ∧ st.in_block = false ∧ st.in_line = false ∧
        c = '/' ∧ n = '/' then
      js_string_interior { st with in_line := true } rest
    else if st.delim = none ∧ st.in_block = false ∧ st.in_line = false ∧
        c = '/' ∧ n = '*' then
      js_string_interior { st with in_block := true } rest
    else
      let step := jsStepBase st c
      step.1 ++ js_string_interior step.2 (n :: rest)

def jsLexInit : JsLexState :=
  { in_block := false, in_line := false, delim := none, escaped := false }

/-! ## Bundler driver (`src/bundle_common.rs`) -/

inductive BundleMode where
  | SingleClient
  | MultiClient
  | SingleServer
  deriving DecidableEq, Repr

inductive BundleError where
  | IoError (msg : String)
  | BundlingError (msg : String)
  | OutputError (msg : String)
  | FileNotFound (path : String)
  | InvalidInput (msg : String)
  deriving DecidableEq, Repr

/-- `BundleResult`: an emitted script with its optional source map. -/
structure BundleResult where
  script : String
  map : Option String
  deriving DecidableEq, Repr

/-- The `{:?}` (Debug) rendering of a `BundleMode`, used in the
cardinality error message of `bundle_common`. -/
def BundleMode.debugStr : BundleMode → String
  | BundleMode.SingleClient => "SingleClient"
  | BundleMode.MultiClient => "MultiClient"
  | BundleMode.SingleServer => "SingleServer"

/-- `matches!(mode, BundleMode::SingleClient | BundleMode::SingleServer)`. -/
def BundleMode.isSingle : BundleMode → Bool
  | BundleMode.SingleClient => true
  | BundleMode.SingleServer => true
  | BundleMode.MultiClient => false

/-- Embedding of the validation half of `bundle_common`
(`src/bundle_common.rs`, lines 119-143).  The filesystem is the oracle
`fs_exists`; everything from `TempDir::new()` onward — the temp directory,
the rolldown invocation and the output walk, that is, every side effect of
bundling — is abstracted as `rest`, an arbitrary result the Rust function
computes only after all three validations pass. -/
def bundle_common {α : Type} (entrypoint_paths : List String) (mode : BundleMode)
    (fs_exists : String → Bool) (rest : Except BundleError α) : Except BundleError α :=
  if entrypoint_paths.isEmpty then
    Except.error (BundleError.InvalidInput "No entrypoint paths provided")
  else if mode.isSingle = true ∧ entrypoint_paths.length > 1 then
    Except.error (BundleError.InvalidInput
      ("Mode " ++ mode.debugStr ++ " only supports a single entrypoint, but " ++
        toString entrypoint_paths.length ++ " were provided"))
  else
    match entrypoint_paths.find? (fun path => ¬ fs_exists path) with
    | some path => Except.error (BundleError.FileNotFound path)
    | none => rest

/-! ## Entry-module synthesizer (`src/code_gen.rs`, `build_entrypoint`) -/

/-- `str::repeat`. -/
def strRepeat (s : String) (n : Nat) : String :=
  String.join (List.replicate n s)

/-- `.enumerate()` over a list. -/
def enumerate {α : Type} (l : List α) : List (Nat × α) :=
  (List.range l.length).zip l

/-- Embedding of `code_gen::build_entrypoint`: the synthesized JSX wrapper
module for one page group. -/
def build_entrypoint (path_group : List String) (is_server : Bool)
    (live_reload_import : String) : String :=
  let imports := String.join ((enumerate path_group).map (fun jp =>
    "import Layout" ++ toString jp.1 ++ " from \x27" ++ jp.2 ++ "\x27;\n"))
  let openTags := String.join ((enumerate path_group).map (fun ip =>
    strRepeat "        " (ip.1 + 1) ++ "<Layout" ++ toString ip.1 ++ ">\n"))
  let closeTags := String.join ((enumerate path_group).reverse.map (fun ip =>
    strRepeat "        " (ip.1 + 1) ++ "</Layout" ++ toString ip.1 ++ ">\n"))
  let footer :=
    if is_server = false then
      "import \x7b hydrateRoot \x7d from \x27react-dom/client\x27;\n" ++
      "const container = document.getElementById(\x27root\x27);\n" ++
      "hydrateRoot(container, <Entrypoint />);\n"
    else
      "import \x7b renderToString \x7d from \x27react-dom/server\x27;\n" ++
      "export const Index = () => renderToString(<Entrypoint />);\n"
  "import React from \x27react\x27;\n" ++
  "import mountLiveReload from \x27" ++ live_reload_import ++ "\x27;\n\n" ++
  imports ++
  "\nconst Entrypoint = () => \x7b\n" ++
  "    mountLiveReload(\x7b\x7d);\n" ++
  "    return (\n" ++
  openTags ++ closeTags ++
  "    );\n" ++
  "\x7d;\n\n" ++
  footer

/-! ## Production bundle orchestrator (`src/bundle_prod.rs`) -/

/-- `Path::file_stem` for the plain file names handled by the
orchestrators: the portion of the final path component before its last
dot (the whole component when it has no dot). -/
def file_stem (s : String) : String :=
  let fileName := ((s.data.reverse.takeWhile (fun c => c ≠ '/')).reverse)
  if fileName.any (fun c => c = '.') then
    String.mk ((fileName.reverse.dropWhile (fun c => c ≠ '.')).drop 1).reverse
  else String.mk fileName

example : file_stem "/tmp/x/entrypoint3.jsx" = "entrypoint3" := by decide

/-- Embedding of `create_synthetic_entrypoints_rust`: for page group `i` it
writes `build_entrypoint` output to `entrypoint{i}.jsx` in the temp
directory and returns the paths in order.  The embedding returns the
`(file name, file content)` pairs; the temp-directory prefix is omitted
since it carries through unchanged and does not affect file stems. -/
def create_synthetic_entrypoints_aux (is_server : Bool) (live_reload_import : String)
    (index : Nat) : List (List String) → List (String × String)
  | [] => []
  | path_group :: rest =>
    ("entrypoint" ++ toString index ++ ".jsx",
      build_entrypoint path_group is_server live_reload_import) ::
    create_synthetic_entrypoints_aux is_server live_reload_import (index + 1) rest

def create_synthetic_entrypoints_rust (paths : List (List String)) (is_server : Bool)
    (live_reload_import : String) : List (String × String) :=
  create_synthetic_entrypoints_aux is_server live_reload_import 0 paths

/-- The entrypoint half of `BundleResults`: `bundle_common`'s map from
chunk name (entry file stem) to bundle result, treated as an oracle since
its content comes from the external bundler. -/
def BundleEntrypoints : Type := String → Option BundleResult

/-- The per-entrypoint collection loop of `compile_production_bundle_rust`
(lines 126-139): for each synthetic entrypoint path in input order, look up
its file stem in `bundle_results.entrypoints` and push the script and the
map (`unwrap_or_default`). -/
def collect_entrypoint_results (bundle_entrypoints : BundleEntrypoints) :
    List (String × String) → Except BundleError (List (String × String))
  | [] => Except.ok []
  | ef :: rest =>
    match bundle_entrypoints (file_stem ef.1) with
    | none =>
      Except.error (BundleError.OutputError
        ("No bundle result for entrypoint: " ++ file_stem ef.1))
    | some bundle_result =>
      match collect_entrypoint_results bundle_entrypoints rest with
      | Except.ok acc =>
        Except.ok ((bundle_result.script, bundle_result.map.getD "") :: acc)
      | Except.error e => Except.error e

/-- The part of `ProductionBundleOutput` the claims are about: the two
parallel ordered lists of entrypoint scripts and source maps. -/
structure ProductionBundleOutput where
  entrypoints : List String
  entrypoint_maps : List String
  deriving DecidableEq, Repr

/-- Embedding of `compile_production_bundle_rust`, with the bundler run
abstracted by the `bundle_entrypoints` oracle (the entrypoint-keyed half of
`BundleResults`; the `extras` half feeds only the supporting-chunk outputs,
which the claims do not touch). -/
def compile_production_bundle_rust (paths : List (List String)) (is_server : Bool)
    (live_reload_import : String) (bundle_entrypoints : BundleEntrypoints) :
    Except BundleError ProductionBundleOutput :=
  let entrypoint_files := create_synthetic_entrypoints_rust paths is_server live_reload_import
  match collect_entrypoint_results bundle_entrypoints entrypoint_files with
  | Except.ok pairs =>
    Except.ok { entrypoints := pairs.map Prod.fst, entrypoint_maps := pairs.map Prod.snd }
  | Except.error e => Except.error e

/-! ## Independent bundle orchestrator (`src/bundle_independent.rs`) -/

/-- The SSR post-processing step of `compile_independent_bundles`
(lines 106-135): validate the IIFE preamble and wrap the script under the
`SSR` global, or fail with a diagnostic embedding the first and last 50
characters of the script. -/
def postprocess_ssr_script (compiled_file : String) : Except String String :=
  if compiled_file.data.take 10 = "(function(".data then
    Except.ok ("var SSR = (() => \x7b\nreturn " ++ compiled_file ++ "\n\x7d)();")
  else
    let start_chars := compiled_file.data.take 50
    let end_chars := (compiled_file.data.reverse.take 50).reverse
    Except.error (String.mk
      (("Compiled file does not match expected IIFE format: " ++
        "(function() \x7b ... \x7d)()\n\nBeginning 50 chars: ").data ++
        start_chars ++ "\nEnding 50 chars: ".data ++ end_chars))

/-! ## SSR execution engine (`src/ssr.rs`) -/

/-- The outcome of evaluating the bundle and taking `to_object` of the
entry global, supplied by the V8 oracle: the object's own property names in
the engine's own-property iteration order, each paired with the
string-coerced result of calling that property as a function with one
string argument.  (The claims under test are about which functions
`Ssr::render` calls and how it combines their results, so the oracle models
non-throwing functions.) -/
def SsrEntryObject : Type := List (String × (String → String))

/-- Embedding of `Ssr::create_fn_map`.  The Rust code wraps the
own-property-names array in an `Option` and iterates `Some(props).iter()`
— one iteration, with `enumerate` index `0` — so the resulting `HashMap`
contains at most the single property found at index 0 of the names array. -/
def create_fn_map (props : SsrEntryObject) : List (String × (String → String)) :=
  match props with
  | [] => []
  | p :: _ => [p]

/-- Embedding of the calling half of `Ssr::render`: the arguments value is
`params.unwrap_or_default()` (the empty string when `params` is `None`),
and the loop concatenates the string-coerced return values over the entries
of `create_fn_map`. -/
def ssr_render (object : SsrEntryObject) (params : Option String) : String :=
  let fn_map := create_fn_map object
  let params_v8 := params.getD ""
  fn_map.foldl (fun rendered kf => rendered ++ kf.2 params_v8) ""

/-! ## Supporting lemmas -/

theorem toSextets_eq_none_of_mem {cs : List Char} {c : Char}
    (hmem : c ∈ cs) (hnone : base64_alphabet c = none) : toSextets cs = none := by
  induction cs with
  | nil => cases hmem
  | cons d rest ih =>
    rcases List.mem_cons.mp hmem with h | h
    · subst h
      simp [toSextets, hnone]
    · unfold toSextets
      cases hd : base64_alphabet d
      · rfl
      · simp [ih h]

theorem toSextets_append (l m : List Char) :
    toSextets (l ++ m) =
      (toSextets l).bind (fun a => (toSextets m).map (fun b => a ++ b)) := by
  induction l with
  | nil =>
    cases hm : toSextets m <;> simp [toSextets, hm]
  | cons c rest ih =>
    simp only [List.cons_append, toSextets]
    cases hc : base64_alphabet c
    · simp [hc]
    · simp only [hc, ih]
      cases hr : toSextets rest <;> cases hm : toSextets m <;>
        simp [ih, hr, hm]

theorem toSextets_all_of_forall {P : Nat → Prop} :
    ∀ {cs : List Char},
      (∀ c ∈ cs, ∃ v, base64_alphabet c = some v ∧ P v) →
      ∃ sx, toSextets cs = some sx ∧ ∀ u ∈ sx, P u := by
  intro cs
  induction cs with
  | nil => intro _; exact ⟨[], rfl, by simp⟩
  | cons c rest ih =>
    intro h
    obtain ⟨v, hv, hPv⟩ := h c (List.mem_cons_self c rest)
    obtain ⟨sx, hsx, hall⟩ := ih (fun d hd => h d (List.mem_cons_of_mem c hd))
    refine ⟨v :: sx, ?_, ?_⟩
    · simp [toSextets, hv, hsx]
    · intro u hu
      rcases List.mem_cons.mp hu with h1 | h1
      · exact h1 ▸ hPv
      · exact hall u h1

theorem foldl_vlqStep_cont {sx : List Nat} :
    ∀ (st : VlqState), (∀ u ∈ sx, u &&& 32 ≠ 0) →
      (sx.foldl vlqStep st).final_values = st.final_values := by
  induction sx with
  | nil => intro st _; rfl
  | cons u rest ih =>
    intro st h
    have hu : u &&& 32 ≠ 0 := h u (List.mem_cons_self u rest)
    rw [List.foldl_cons]
    rw [ih _ (fun w hw => h w (List.mem_cons_of_mem u hw))]
    unfold vlqStep
    simp [hu]

/-! ## Claims -/

/-- C5: `parse_vlq` decodes base64 VLQ runs by the sign-and-continuation
scheme; concretely, `"aAYQA"` decodes to `[13, 0, 12, 8, 0]`, `"kBAChO"` to
`[18, 0, 1, -224]`, and `"AClrFA"` to `[0, 1, -2738, 0]`. -/
theorem parse_vlq_concrete_decodings :
    parse_vlq "aAYQA" = VlqResult.ok [13, 0, 12, 8, 0] ∧
    parse_vlq "kBAChO" = VlqResult.ok [18, 0, 1, -224] ∧
    parse_vlq "AClrFA" = VlqResult.ok [0, 1, -2738, 0] := by
  refine ⟨by decide, by decide, by decide⟩

/-- C2 counterexample: on `"!"`, whose character is outside the base64
alphabet, `parse_vlq` panics (the `.unwrap()` on the alphabet lookup); it
does not return a decode error — its `Vec<i32>` return type has no error
channel at all — so the claim that an unknown character yields a decode
error without crashing fails. -/
theorem parse_vlq_unknown_char_cex :
    parse_vlq "!" = VlqResult.panic ∧
    ∀ values, parse_vlq "!" ≠ VlqResult.ok values := by
  exact ⟨by decide, fun values h => by cases h⟩

/-- C2 amended: for every input containing at least one character outside
the 64-character base64 alphabet, `parse_vlq` panics (modelled by
`VlqResult.panic`); it neither succeeds with a value sequence nor returns a
decode error. -/
theorem parse_vlq_unknown_char_panics (s : String)
    (h : ∃ c ∈ s.data, base64_alphabet c = none) :
    parse_vlq s = VlqResult.panic := by
  obtain ⟨c, hmem, hnone⟩ := h
  unfold parse_vlq parse_vlq_chars
  rw [toSextets_eq_none_of_mem hmem hnone]

theorem parse_vlq_unknown_char_panics_witness :
    parse_vlq "!" = VlqResult.panic :=
  parse_vlq_unknown_char_panics "!" ⟨'!', by decide, by decide⟩

/-- C9: a trailing group whose sextets all carry the continuation bit never
completes, so `parse_vlq` silently discards it: appending such a suffix to
any input leaves the decoded value sequence (or panic) unchanged, and no
error is reported. -/
theorem parse_vlq_incomplete_group_discarded (s t : String)
    (h : ∀ c ∈ t.data, ∃ v, base64_alphabet c = some v ∧ v &&& 32 ≠ 0) :
    parse_vlq (s ++ t) = parse_vlq s := by
  obtain ⟨sx, hsx, hall⟩ := toSextets_all_of_forall h
  unfold parse_vlq parse_vlq_chars
  rw [String.data_append, toSextets_append, hsx]
  cases hs : toSextets s.data with
  | none => rfl
  | some a =>
    show VlqResult.ok (((a ++ sx).foldl vlqStep vlqInitState).final_values) =
      VlqResult.ok ((a.foldl vlqStep vlqInitState).final_values)
    rw [List.foldl_append]
    rw [foldl_vlqStep_cont _ hall]

theorem parse_vlq_incomplete_group_discarded_witness :
    parse_vlq ("A" ++ "g") = parse_vlq "A" ∧ parse_vlq "A" = VlqResult.ok [0] := by
  refine ⟨parse_vlq_incomplete_group_discarded "A" "g" ?_, by decide⟩
  intro c hc
  have hcg : c = 'g' := by simpa using hc
  subst hcg
  exact ⟨32, by decide, by decide⟩

/-- C1 (code bug): for the entry object `{a: () => "1", b: () => "2"}`,
`Ssr::render` returns `"1"`, not the claimed concatenation `"12"` of all
own-property results: `create_fn_map` iterates `Some(props)` — the
`Option`, not the property-names array — so only the property at index 0
is ever called. -/
theorem ssr_render_calls_only_first_property :
    ssr_render [("a", fun _ => "1"), ("b", fun _ => "2")] none = "1" ∧
    ssr_render [("a", fun _ => "1"), ("b", fun _ => "2")] none ≠ "12" := by
  exact ⟨rfl, by decide⟩

/-- C7: in SSR mode, `compile_independent_bundles` wraps a script starting
with `(function(` as `var SSR = (() => {\nreturn <script>\n})();`, and
fails on any other script with an error whose message contains the first 50
and the last 50 characters of the script. -/
theorem compile_independent_ssr_postprocess (compiled_file : String) :
    (compiled_file.data.take 10 = "(function(".data →
      postprocess_ssr_script compiled_file =
        Except.ok ("var SSR = (() => \x7b\nreturn " ++ compiled_file ++ "\n\x7d)();")) ∧
    (compiled_file.data.take 10 ≠ "(function(".data →
      ∃ before between, postprocess_ssr_script compiled_file =
        Except.error (String.mk (before ++ compiled_file.data.take 50 ++ between ++
          (compiled_file.data.reverse.take 50).reverse))) := by
  constructor
  · intro h
    unfold postprocess_ssr_script
    rw [if_pos h]
  · intro h
    refine ⟨("Compiled file does not match expected IIFE format: " ++
      "(function() \x7b ... \x7d)()\n\nBeginning 50 chars: ").data,
      "\nEnding 50 chars: ".data, ?_⟩
    unfold postprocess_ssr_script
    rw [if_neg h]

theorem compile_independent_ssr_postprocess_witness :
    postprocess_ssr_script "(function()\x7b\x7d)()" =
      Except.ok "var SSR = (() => \x7b\nreturn (function()\x7b\x7d)()\n\x7d)();" ∧
    (∃ before between, postprocess_ssr_script "x" =
      Except.error (String.mk (before ++ "x".data.take 50 ++ between ++
        ("x".data.reverse.take 50).reverse))) := by
  constructor
  · exact ((compile_independent_ssr_postprocess "(function()\x7b\x7d)()").1
      (by decide)).trans (congrArg Except.ok (by decide))
  · exact (compile_independent_ssr_postprocess "x").2 (by decide)

/-- C8: `bundle_common` validates before any bundling side effect: an empty
entrypoint list gives `InvalidInput`; more than one entrypoint in
`SingleClient`/`SingleServer` mode gives `InvalidInput`; a non-existing
entrypoint gives `FileNotFound` naming the first offending path; and in
each of these cases the result does not depend on what the bundling
remainder would have produced. -/
theorem bundle_common_validation {α : Type} (entrypoint_paths : List String)
    (mode : BundleMode) (fs_exists : String → Bool)
    (rest rest1 : Except BundleError α) :
    (entrypoint_paths = [] →
      bundle_common entrypoint_paths mode fs_exists rest =
        Except.error (BundleError.InvalidInput "No entrypoint paths provided")) ∧
    (mode.isSingle = true → entrypoint_paths.length > 1 →
      bundle_common entrypoint_paths mode fs_exists rest =
        Except.error (BundleError.InvalidInput
          ("Mode " ++ mode.debugStr ++ " only supports a single entrypoint, but " ++
            toString entrypoint_paths.length ++ " were provided"))) ∧
    (∀ path, entrypoint_paths ≠ [] →
      (mode.isSingle = true → entrypoint_paths.length ≤ 1) →
      entrypoint_paths.find? (fun q => ¬ fs_exists q) = some path →
      bundle_common entrypoint_paths mode fs_exists rest =
        Except.error (BundleError.FileNotFound path)) ∧
    ((entrypoint_paths = [] ∨ (mode.isSingle = true ∧ entrypoint_paths.length > 1) ∨
        ∃ path ∈ entrypoint_paths, fs_exists path = false) →
      bundle_common entrypoint_paths mode fs_exists rest =
        bundle_common entrypoint_paths mode fs_exists rest1) := by
  refine ⟨?_, ?_, ?_, ?_⟩
  · intro h
    subst h
    rfl
  · intro hmode hlen
    have hne : entrypoint_paths.isEmpty = false := by
      cases entrypoint_paths
      · simp at hlen
      · rfl
    unfold bundle_common
    rw [if_neg (by simp [hne]), if_pos ⟨hmode, hlen⟩]
  · intro path hne hcard hfind
    unfold bundle_common
    rw [if_neg (by simp [hne]), if_neg ?_, hfind]
    rintro ⟨h1, h2⟩
    have := hcard h1
    omega
  · intro h
    rcases h with h | h | h
    · subst h; rfl
    · have hne : entrypoint_paths.isEmpty = false := by
        cases entrypoint_paths
        · simp at h
        · rfl
      unfold bundle_common
      rw [if_neg (by simp [hne]), if_pos h, if_neg (by simp [hne]), if_pos h]
    · obtain ⟨path, hmem, hfalse⟩ := h
      have hfind : (entrypoint_paths.find? (fun q => ¬ fs_exists q)).isSome := by
        rw [List.find?_isSome]
        exact ⟨path, hmem, by simp [hfalse]⟩
      obtain ⟨q, hq⟩ := Option.isSome_iff_exists.mp hfind
      unfold bundle_common
      by_cases hempt : entrypoint_paths.isEmpty = true
      · rw [if_pos hempt, if_pos hempt]
      · rw [if_neg hempt, if_neg hempt]
        by_cases hcard : mode.isSingle = true ∧ entrypoint_paths.length > 1
        · rw [if_pos hcard, if_pos hcard]
        · rw [if_neg hcard, if_neg hcard, hq]

theorem bundle_common_validation_witness :
    bundle_common ([] : List String) BundleMode.MultiClient (fun _ => false)
        (Except.ok ()) =
      Except.error (BundleError.InvalidInput "No entrypoint paths provided") ∧
    bundle_common ["a.js", "b.js"] BundleMode.SingleClient (fun _ => false)
        (Except.ok ()) =
      Except.error (BundleError.InvalidInput
        "Mode SingleClient only supports a single entrypoint, but 2 were provided") ∧
    bundle_common ["missing.js"] BundleMode.MultiClient (fun _ => false)
        (Except.ok ()) =
      Except.error (BundleError.FileNotFound "missing.js") := by
  refine ⟨?_, ?_, ?_⟩
  · exact (bundle_common_validation [] BundleMode.MultiClient (fun _ => false)
      (Except.ok ()) (Except.ok ())).1 rfl
  · exact ((bundle_common_validation ["a.js", "b.js"] BundleMode.SingleClient
      (fun _ => false) (Except.ok ()) (Except.ok ())).2.1 rfl (by decide)).trans
      (congrArg (fun s => Except.error (BundleError.InvalidInput s)) (by decide))
  · exact (bundle_common_validation ["missing.js"] BundleMode.MultiClient
      (fun _ => false) (Except.ok ()) (Except.ok ())).2.2.1 "missing.js"
      (by decide) (by decide) (by decide)

/-- C4: in `merge_relative_metadatas` (the accumulator step of
`parse_mapping`), the generated-column delta is added to the previous
absolute column only when the group lies on the same generated line as the
state; on a different line the column is taken absolutely; and the four
running accumulators (`source_index`, `source_line`, `source_column`,
`symbol_index`) merge and update identically whether or not the line
changed. -/
theorem merge_relative_metadatas_line_boundary
    (current state_same state_cross : MapMetadata)
    (hsame : state_same.line_number = current.line_number)
    (hcross : state_cross.line_number ≠ current.line_number)
    (h1 : state_cross.source_index = state_same.source_index)
    (h2 : state_cross.source_line = state_same.source_line)
    (h3 : state_cross.source_column = state_same.source_column)
    (h4 : state_cross.symbol_index = state_same.symbol_index) :
    (merge_relative_metadatas current state_same).1.column_number =
        current.column_number + state_same.column_number ∧
    (merge_relative_metadatas current state_cross).1.column_number =
        current.column_number ∧
    (merge_relative_metadatas current state_cross).1.source_index =
        (merge_relative_metadatas current state_same).1.source_index ∧
    (merge_relative_metadatas current state_cross).1.source_line =
        (merge_relative_metadatas current state_same).1.source_line ∧
    (merge_relative_metadatas current state_cross).1.source_column =
        (merge_relative_metadatas current state_same).1.source_column ∧
    (merge_relative_metadatas current state_cross).1.symbol_index =
        (merge_relative_metadatas current state_same).1.symbol_index ∧
    (merge_relative_metadatas current state_cross).2.source_index =
        (merge_relative_metadatas current state_same).2.source_index ∧
    (merge_relative_metadatas current state_cross).2.source_line =
        (merge_relative_metadatas current state_same).2.source_line ∧
    (merge_relative_metadatas current state_cross).2.source_column =
        (merge_relative_metadatas current state_same).2.source_column ∧
    (merge_relative_metadatas current state_cross).2.symbol_index =
        (merge_relative_metadatas current state_same).2.symbol_index := by
  simp [merge_relative_metadatas, merge_and_update_attribute,
    update_state_attribute, hsame, hcross, h1, h2, h3, h4]

theorem merge_relative_metadatas_line_boundary_witness :
    (merge_relative_metadatas
      { line_number := 1, column_number := 20, source_index := some 20,
        source_line := some 20, source_column := some 20, symbol_index := some 20 }
      { line_number := 1, column_number := 10, source_index := some 10,
        source_line := some 10, source_column := some 10, symbol_index := some 10 }).1.column_number = 30 ∧
    (merge_relative_metadatas
      { line_number := 1, column_number := 20, source_index := some 20,
        source_line := some 20, source_column := some 20, symbol_index := some 20 }
      { line_number := 2, column_number := 10, source_index := some 10,
        source_line := some 10, source_column := some 10, symbol_index := some 10 }).1.column_number = 20 ∧
    (merge_relative_metadatas
      { line_number := 1, column_number := 20, source_index := some 20,
        source_line := some 20, source_column := some 20, symbol_index := some 20 }
      { line_number := 2, column_number := 10, source_index := some 10,
        source_line := some 10, source_column := some 10, symbol_index := some 10 }).1.source_index =
    (merge_relative_metadatas
      { line_number := 1, column_number := 20, source_index := some 20,
        source_line := some 20, source_column := some 20, symbol_index := some 20 }
      { line_number := 1, column_number := 10, source_index := some 10,
        source_line := some 10, source_column := some 10, symbol_index := some 10 }).1.source_index := by
  have h := merge_relative_metadatas_line_boundary
    { line_number := 1, column_number := 20, source_index := some 20,
      source_line := some 20, source_column := some 20, symbol_index := some 20 }
    { line_number := 1, column_number := 10, source_index := some 10,
      source_line := some 10, source_column := some 10, symbol_index := some 10 }
    { line_number := 2, column_number := 10, source_index := some 10,
      source_line := some 10, source_column := some 10, symbol_index := some 10 }
    rfl (by decide) rfl rfl rfl rfl
  exact ⟨h.1, h.2.1, h.2.2.1⟩

/-- Folding `HashMap::insert` events: a key maps to the value of the last
event for that key, falling back to the initial map. -/
theorem foldl_insert_mapping_lookup :
    ∀ (events : List MappingEvent) (m0 : Int × Int → Option MapMetadata) (k : Int × Int),
      (events.foldl (fun m e => insert_mapping m e.1 e.2) m0) k =
        match events.reverse.find? (fun e => decide (e.1 = k)) with
        | some e => some e.2
        | none => m0 k := by
  intro events
  induction events with
  | nil => intro m0 k; rfl
  | cons e rest ih =>
    intro m0 k
    rw [List.foldl_cons, ih, List.reverse_cons, List.find?_append]
    cases hr : rest.reverse.find? (fun e => decide (e.1 = k))
    · simp only [Option.none_or]
      by_cases hk : e.1 = k
      · have h1 : [e].find? (fun e => decide (e.1 = k)) = some e := by simp [hk]
        simp only [h1]
        show (if k = e.1 then some e.2 else m0 k) = some e.2
        rw [if_pos hk.symm]
      · have h1 : [e].find? (fun e => decide (e.1 = k)) = none := by simp [hk]
        simp only [h1]
        show (if k = e.1 then some e.2 else m0 k) = m0 k
        rw [if_neg (fun hkk => hk hkk.symm)]
    · simp

/-- C10: when two groups of a mappings string materialize to the same
1-indexed generated position, the `HashMap::insert` in `parse_mapping`
overwrites the earlier entry, so the returned map sends every position to
the metadata of the last group parsed at that position (and has at most one
entry per position, being a map). -/
theorem parse_mapping_last_group_wins (mappings : String) (events : List MappingEvent)
    (h : parse_mapping_events mappings = RunResult.ok events) :
    parse_mapping mappings = RunResult.ok (build_mapping events) ∧
    ∀ k, build_mapping events k =
      match events.reverse.find? (fun e => decide (e.1 = k)) with
      | some e => some e.2
      | none => none := by
  constructor
  · unfold parse_mapping
    rw [h]
  · intro k
    exact foldl_insert_mapping_lookup events (fun _ => none) k

theorem parse_mapping_last_group_wins_witness :
    parse_mapping "AAAA,AACA" = RunResult.ok (build_mapping
      [((1, 1), MapMetadata.mk 0 0 (some 0) (some 0) (some 0) none),
       ((1, 1), MapMetadata.mk 0 0 (some 0) (some 1) (some 0) none)]) ∧
    build_mapping
      [((1, 1), MapMetadata.mk 0 0 (some 0) (some 0) (some 0) none),
       ((1, 1), MapMetadata.mk 0 0 (some 0) (some 1) (some 0) none)] (1, 1) =
      some (MapMetadata.mk 0 0 (some 0) (some 1) (some 0) none) := by
  have h := parse_mapping_last_group_wins "AAAA,AACA"
    [((1, 1), MapMetadata.mk 0 0 (some 0) (some 0) (some 0) none),
     ((1, 1), MapMetadata.mk 0 0 (some 0) (some 1) (some 0) none)]
    (by decide)
  exact ⟨h.1, (h.2 (1, 1)).trans (by decide)⟩

/-- The synthetic entrypoint list, elementwise: position `i` holds the file
`entrypoint{k+i}.jsx` wrapping page group `i`. -/
theorem create_synthetic_aux_getElem (is_server : Bool) (live_reload_import : String) :
    ∀ (paths : List (List String)) (k i : Nat),
      (create_synthetic_entrypoints_aux is_server live_reload_import k paths)[i]? =
        (paths[i]?).map (fun pg =>
          ("entrypoint" ++ toString (k + i) ++ ".jsx",
            build_entrypoint pg is_server live_reload_import)) := by
  intro paths
  induction paths with
  | nil => intro k i; simp [create_synthetic_entrypoints_aux]
  | cons pg rest ih =>
    intro k i
    cases i with
    | zero => simp [create_synthetic_entrypoints_aux]
    | succ j =>
      simp only [create_synthetic_entrypoints_aux, List.getElem?_cons_succ, ih (k + 1) j]
      have harith : k + 1 + j = k + (j + 1) := by omega
      rw [harith]

/-- The collection loop of `compile_production_bundle_rust`, elementwise:
when it succeeds, position `i` of the collected pairs is the oracle result
for the stem of entry file `i`. -/
theorem collect_entrypoint_results_getElem (bundle_entrypoints : BundleEntrypoints) :
    ∀ (entrypoint_files : List (String × String)) (pairs : List (String × String)),
      collect_entrypoint_results bundle_entrypoints entrypoint_files = Except.ok pairs →
      ∀ (i : Nat) (ef : String × String), entrypoint_files[i]? = some ef →
        ∃ r, bundle_entrypoints (file_stem ef.1) = some r ∧
          pairs[i]? = some (r.script, r.map.getD "") := by
  intro entrypoint_files
  induction entrypoint_files with
  | nil =>
    intro pairs _ i ef hef
    simp at hef
  | cons ef0 rest ih =>
    intro pairs hcollect i ef hef
    unfold collect_entrypoint_results at hcollect
    cases horacle : bundle_entrypoints (file_stem ef0.1) with
    | none => rw [horacle] at hcollect; cases hcollect
    | some r0 =>
      rw [horacle] at hcollect
      cases hrest : collect_entrypoint_results bundle_entrypoints rest with
      | error e => rw [hrest] at hcollect; cases hcollect
      | ok acc =>
        rw [hrest] at hcollect
        cases hcollect
        cases i with
        | zero =>
          have hef0 : ef0 = ef := by simpa using hef
          subst hef0
          exact ⟨r0, horacle, by simp⟩
        | succ j =>
          have hef1 : rest[j]? = some ef := by simpa using hef
          obtain ⟨r, hr1, hr2⟩ := ih acc hrest j ef hef1
          exact ⟨r, hr1, by simpa using hr2⟩

/-- C6: `compile_production_bundle` preserves input order: when the run
succeeds, the `i`-th entries of the returned script and map lists are the
bundle result (from `bundle_results.entrypoints`) for the stem of the
synthetic wrapper `entrypoint{i}.jsx`, which was generated from page group
`i`. -/
theorem compile_production_bundle_order (paths : List (List String)) (is_server : Bool)
    (live_reload_import : String) (bundle_entrypoints : BundleEntrypoints)
    (out : ProductionBundleOutput)
    (h : compile_production_bundle_rust paths is_server live_reload_import
      bundle_entrypoints = Except.ok out) :
    ∀ (i : Nat) (pg : List String), paths[i]? = some pg →
      ∃ name r,
        (create_synthetic_entrypoints_rust paths is_server live_reload_import)[i]? =
          some (name, build_entrypoint pg is_server live_reload_import) ∧
        name = "entrypoint" ++ toString i ++ ".jsx" ∧
        bundle_entrypoints (file_stem name) = some r ∧
        out.entrypoints[i]? = some r.script ∧
        out.entrypoint_maps[i]? = some (r.map.getD "") := by
  intro i pg hpg
  unfold compile_production_bundle_rust at h
  simp only [] at h
  cases hc : collect_entrypoint_results bundle_entrypoints
      (create_synthetic_entrypoints_rust paths is_server live_reload_import) with
  | error e => rw [hc] at h; cases h
  | ok pairs =>
    rw [hc] at h
    cases h
    have hget : (create_synthetic_entrypoints_rust paths is_server live_reload_import)[i]? =
        some ("entrypoint" ++ toString (0 + i) ++ ".jsx",
          build_entrypoint pg is_server live_reload_import) := by
      unfold create_synthetic_entrypoints_rust
      rw [create_synthetic_aux_getElem is_server live_reload_import paths 0 i, hpg]
      rfl
    rw [Nat.zero_add] at hget
    obtain ⟨r, horacle, hpair⟩ := collect_entrypoint_results_getElem bundle_entrypoints
      (create_synthetic_entrypoints_rust paths is_server live_reload_import) pairs hc i
      ("entrypoint" ++ toString i ++ ".jsx",
        build_entrypoint pg is_server live_reload_import) hget
    refine ⟨"entrypoint" ++ toString i ++ ".jsx", r, hget, rfl, horacle, ?_, ?_⟩
    · show (pairs.map Prod.fst)[i]? = some r.script
      rw [List.getElem?_map, hpair]
      rfl
    · show (pairs.map Prod.snd)[i]? = some (r.map.getD "")
      rw [List.getElem?_map, hpair]
      rfl

theorem compile_production_bundle_order_witness :
    (∃ name r,
      (create_synthetic_entrypoints_rust [["/a.tsx"], ["/b.tsx"]] false "/lr.ts")[0]? =
        some (name, build_entrypoint ["/a.tsx"] false "/lr.ts") ∧
      name = "entrypoint" ++ toString 0 ++ ".jsx" ∧
      (fun s => if s = "entrypoint0" then some (BundleResult.mk "s0" (some "m0"))
        else if s = "entrypoint1" then some (BundleResult.mk "s1" none)
        else none) (file_stem name) = some r ∧
      (ProductionBundleOutput.mk ["s0", "s1"] ["m0", ""]).entrypoints[0]? = some r.script ∧
      (ProductionBundleOutput.mk ["s0", "s1"] ["m0", ""]).entrypoint_maps[0]? =
        some (r.map.getD "")) ∧
    (∃ name r,
      (create_synthetic_entrypoints_rust [["/a.tsx"], ["/b.tsx"]] false "/lr.ts")[1]? =
        some (name, build_entrypoint ["/b.tsx"] false "/lr.ts") ∧
      name = "entrypoint" ++ toString 1 ++ ".jsx" ∧
      (fun s => if s = "entrypoint0" then some (BundleResult.mk "s0" (some "m0"))
        else if s = "entrypoint1" then some (BundleResult.mk "s1" none)
        else none) (file_stem name) = some r ∧
      (ProductionBundleOutput.mk ["s0", "s1"] ["m0", ""]).entrypoints[1]? = some r.script ∧
      (ProductionBundleOutput.mk ["s0", "s1"] ["m0", ""]).entrypoint_maps[1]? =
        some (r.map.getD "")) := by
  have h := compile_production_bundle_order [["/a.tsx"], ["/b.tsx"]] false "/lr.ts"
    (fun s => if s = "entrypoint0" then some (BundleResult.mk "s0" (some "m0"))
      else if s = "entrypoint1" then some (BundleResult.mk "s1" none)
      else none)
    (ProductionBundleOutput.mk ["s0", "s1"] ["m0", ""]) rfl
  exact ⟨h 0 ["/a.tsx"] rfl, h 1 ["/b.tsx"] rfl⟩

/-- The comment-state invariant of `strip_js_comments`: while the lexer is
inside a string it is in no comment (string state is only entered outside
comments, and comments are only entered outside strings). -/
def LexInv (st : LexState) : Prop :=
  st.string_delimiter ≠ none →
    st.is_in_block_comment = false ∧ st.is_in_line_comment = false

theorem lexStepBase_preserves_inv (skip_whitespace : Bool) (st : LexState) (c : Char)
    (hinv : LexInv st) : LexInv (lexStepBase skip_whitespace st c).2 := by
  unfold lexStepBase
  by_cases h1 : opensString st c
  · rw [if_pos h1]
    intro _
    exact ⟨h1.2.1, h1.2.2.1⟩
  · rw [if_neg h1]
    by_cases h2 : closesString st c
    · rw [if_pos h2]
      intro hd
      exact absurd rfl hd
    · rw [if_neg h2]
      by_cases h3 : c = '\n' ∧ st.is_in_line_comment
      · rw [if_pos h3]
        intro hd
        exact ⟨(hinv hd).1, rfl⟩
      · rw [if_neg h3]
        by_cases h4 : c.isWhitespace ∧ skip_whitespace = true ∧ st.string_delimiter = none
        · rw [if_pos h4]
          exact hinv
        · rw [if_neg h4]
          by_cases h5 : st.is_in_block_comment = false ∧ st.is_in_line_comment = false
          · rw [if_pos h5]
            exact hinv
          · rw [if_neg h5]
            exact hinv

/-- While the lexer of `strip_js_comments` is in string state, every
consumed character is emitted: the lexer-tracked string characters form a
sublist (in order) of the output. -/
theorem lexer_string_chars_sublist_aux :
    ∀ (n : Nat) (cs : List Char), cs.length ≤ n → ∀ (st : LexState), LexInv st →
      List.Sublist (lexer_string_chars false st cs) (strip_go false st cs) := by
  intro n
  induction n with
  | zero =>
    intro cs hlen st _
    have hcs : cs = [] := List.length_eq_zero.mp (Nat.le_zero.mp hlen)
    subst hcs
    exact List.Sublist.refl _
  | succ n0 ih =>
    intro cs hlen st hinv
    match cs with
    | [] => exact List.Sublist.refl _
    | [c] =>
      show List.Sublist
        (if st.string_delimiter ≠ none ∧ ¬ closesString st c then [c] else [])
        (lexStepBase false st c).1
      by_cases hd : st.string_delimiter = none
      · rw [if_neg (by simp [hd])]
        exact List.nil_sublist _
      · have hflags := hinv hd
        by_cases hcl : closesString st c
        · rw [if_neg (by simp [hcl])]
          exact List.nil_sublist _
        · rw [if_pos ⟨hd, hcl⟩]
          have hopen : ¬ opensString st c := by
            intro hop
            exact hd hop.2.2.2
          have hnl : ¬ (c = '\n' ∧ st.is_in_line_comment = true) := by
            rintro ⟨_, hline⟩
            rw [hflags.2] at hline
            cases hline
          unfold lexStepBase
          rw [if_neg hopen, if_neg hcl, if_neg (by simpa using hnl),
            if_neg (by simp), if_pos ⟨hflags.1, hflags.2⟩]
    | c :: m :: rest =>
      have hlen2 : (m :: rest).length ≤ n0 := by
        simp at hlen
        simp
        omega
      have hlen3 : rest.length ≤ n0 := by
        simp at hlen2
        omega
      unfold lexer_string_chars strip_go
      by_cases h1 : opensString st c
      · rw [if_pos h1, if_pos h1]
        refine List.Sublist.cons c ?_
        refine ih (m :: rest) hlen2 _ ?_
        intro _
        exact ⟨h1.2.1, h1.2.2.1⟩
      · rw [if_neg h1, if_neg h1]
        by_cases h2 : closesString st c
        · rw [if_pos h2, if_pos h2]
          refine List.Sublist.cons c ?_
          refine ih (m :: rest) hlen2 _ ?_
          intro hd
          exact absurd rfl hd
        · rw [if_neg h2, if_neg h2]
          by_cases h3 : st.string_delimiter = none
          · rw [if_neg (by simp [h3])]
            by_cases h4 : slashArm st c
            · rw [if_pos h4, if_pos h4]
              by_cases h5 : m = '/'
              · rw [if_pos h5, if_pos h5]
                refine ih rest hlen3 _ ?_
                intro hd
                exact absurd h3 hd
              · rw [if_neg h5, if_neg h5]
                by_cases h6 : m = '*'
                · rw [if_pos h6, if_pos h6]
                  refine ih rest hlen3 _ ?_
                  intro hd
                  exact absurd h3 hd
                · rw [if_neg h6, if_neg h6]
                  refine List.Sublist.cons c ?_
                  refine ih (m :: rest) hlen2 _ ?_
                  intro hd
                  exact absurd h3 hd
            · rw [if_neg h4, if_neg h4]
              by_cases h5 : c = '*' ∧ st.is_in_block_comment = true
              · rw [if_pos h5, if_pos h5]
                by_cases h6 : m = '/'
                · rw [if_pos h6, if_pos h6]
                  refine ih rest hlen3 _ ?_
                  intro hd
                  exact absurd h3 hd
                · rw [if_neg h6, if_neg h6]
                  refine List.Sublist.cons c ?_
                  refine ih (m :: rest) hlen2 _ ?_
                  intro hd
                  exact absurd h3 hd
              · rw [if_neg h5, if_neg h5]
                have hsub := ih (m :: rest) hlen2 (lexStepBase false st c).2
                  (lexStepBase_preserves_inv false st c hinv)
                exact hsub.trans (List.sublist_append_right _ _)
          · have hdel : st.string_delimiter ≠ none := h3
            rw [if_pos (by simp [h3])]
            have hflags := hinv hdel
            have h4 : ¬ slashArm st c := by
              rintro ⟨_, _, hnone⟩
              exact hdel hnone
            have h5 : ¬ (c = '*' ∧ st.is_in_block_comment = true) := by
              rintro ⟨_, hblock⟩
              rw [hflags.1] at hblock
              cases hblock
            rw [if_neg h4, if_neg h5]
            have hbase : lexStepBase false st c = ([c], { st with prev := some c }) := by
              have hnl : ¬ (c = '\n' ∧ st.is_in_line_comment = true) := by
                rintro ⟨_, hline⟩
                rw [hflags.2] at hline
                cases hline
              unfold lexStepBase
              rw [if_neg h1, if_neg h2, if_neg (by simpa using hnl),
                if_neg (by simp), if_pos ⟨hflags.1, hflags.2⟩]
            rw [hbase]
            refine List.Sublist.cons₂ c ?_
            refine ih (m :: rest) hlen2 _ ?_
            intro _
            exact hflags

/-- C3 amended: `strip_js_comments(s, skip_whitespace = false)` emits
verbatim, in order, every character the lexer consumes while inside a
string literal, where string-literal extent follows the lexer rule: a
literal closes at the next occurrence of its delimiter whose immediately
preceding character is not a backslash. -/
theorem strip_js_comments_preserves_lexer_strings (s : String) :
    List.Sublist (lexer_string_chars false lexInit s.data)
      ((strip_js_comments s false).data) :=
  lexer_string_chars_sublist_aux s.data.length s.data (Nat.le_refl _) lexInit
    (fun hd => absurd rfl hd)

/-- C3 counterexample: in the input `"\\" '"/*h*/'` the character `h`
lies inside a JavaScript string literal (the first literal `"\\"` closes
at its final quote because the backslash before it is itself escaped, and
the second literal is `'`-delimited and contains `"/*h*/`), yet
`strip_js_comments` drops it: the lexer never exits its first string state
at the escaped-backslash-then-quote position, later exits mid-literal, and
then treats `/*h*/` as a block comment. -/
theorem strip_js_comments_string_literal_cex :
    'h' ∈ js_string_interior jsLexInit "\x22\\\\\x22 \x27\x22/*h*/\x27".data ∧
    'h' ∉ (strip_js_comments "\x22\\\\\x22 \x27\x22/*h*/\x27" false).data := by
  exact ⟨by decide, by decide⟩

end Mountaineer
